import Mathlib

/-!
# AlphaForge Knob Modeler — formal model of the geometry core

A shallow embedding, in Lean 4, of the parametric-geometry core of the
AlphaForge knob/enclosure modeler:

* the knob profile builder and shaft-bore generation of
  `components/KnobMesh.tsx` (outer silhouette, Round / D-Shaft / Splined
  bores);
* the vertical slicing engine of the same component (`slices`), which
  partitions the knob height into tagged regions;
* the drill-template projector of `services/exportService.ts`
  (`generateDrillTemplateSVG`), including the enclosure-model lookup table of
  `types/EnclosureTypes.ts`;
* the application-level load-project and STL-export handlers of the main app
  component (state snapshot / restore behaviour).

Numeric values carried by the TypeScript code are JavaScript numbers; the
arithmetic the core performs on them (`+`, `-`, `*`, `/`, `min`, `max`,
comparisons against the literals `0.1`, `0.01`, `1`) is embedded over `ℚ`,
which represents every literal of the source exactly.  Trigonometric
boundary point sets (`Math.cos`, `Math.sin`, `Math.sqrt`, `Math.asin` via
`THREE.Shape.absarc`) are embedded as subsets of `ℝ × ℝ`.
-/

namespace AlphaForge

/-! ## Data model (`types.ts`) -/

/-- Shaft fit types, from the `ShaftType` enum. -/
inductive ShaftType where
  | D_SHAFT
  | ROUND
  | SPLINED
deriving DecidableEq

/-- Knob silhouette shapes, from the `KnobShape` enum. -/
inductive KnobShape where
  | CYLINDER
  | POLYGON
  | FLUTED
  | DROP
  | POINTER
deriving DecidableEq

/-- The `KnobParameters` record.  Field set of `types.ts`, together with the
`holeTolerance` field used by the application shell (`App.tsx` reads
`knobParams.holeTolerance ?? 0.15`); the mesh builder itself never reads
`holeTolerance`. -/
structure KnobParameters where
  diameter : ℚ
  height : ℚ
  skirtHeight : ℚ
  skirtDiameter : ℚ
  shape : KnobShape
  polygonSides : ℚ
  fluteCount : ℚ
  taperPercentage : ℚ
  closedTop : Bool
  hasCap : Bool
  capHeight : ℚ
  capColor : String
  pointerIndent : Bool
  pointerColor : String
  shaftType : ShaftType
  shaftDiameter : ℚ
  shaftDepth : ℚ
  dFlatSize : ℚ
  holeTolerance : ℚ
deriving DecidableEq

/-- The `DEFAULT_KNOB` record of `types.ts` (with the application default
`holeTolerance = 0.15`). -/
def DEFAULT_KNOB : KnobParameters where
  diameter := 20
  height := 18
  skirtHeight := 0
  skirtDiameter := 22
  shape := KnobShape.CYLINDER
  polygonSides := 6
  fluteCount := 10
  taperPercentage := 5
  closedTop := true
  hasCap := false
  capHeight := 3
  capColor := "#ff0000"
  pointerIndent := true
  pointerColor := "#ffffff"
  shaftType := ShaftType.SPLINED
  shaftDiameter := 6
  shaftDepth := 14
  dFlatSize := 4.5
  holeTolerance := 0.15

/-! ## Profile builder (`KnobMesh.tsx`, shaft hole generation)

The code computes `const shaftR = params.shaftDiameter / 2;` and builds the
hole path from it.  Note that `params.holeTolerance` is never consulted. -/

/-- The `shaftR` constant of `KnobMesh.tsx`: `params.shaftDiameter / 2`. -/
def shaftR (p : KnobParameters) : ℚ := p.shaftDiameter / 2

/-- The `radius` constant of `KnobMesh.tsx`: `params.diameter / 2`, used for
the outer silhouette. -/
def outerRadius (p : KnobParameters) : ℚ := p.diameter / 2

/-- D-shaft: `const centerToFlat = params.dFlatSize - shaftR;`. -/
def centerToFlat (p : KnobParameters) : ℚ := p.dFlatSize - shaftR p

/-- D-shaft: `const flatY = -centerToFlat;` (the flat is placed on the −Y
side, opposite the indicator at +Y). -/
def flatY (p : KnobParameters) : ℚ := -centerToFlat p

/-- The argument of `Math.sqrt` in
`const xOff = Math.sqrt(shaftR * shaftR - flatY * flatY);`.
`Math.sqrt` returns `NaN` exactly when this is negative, and
`Math.asin(flatY / shaftR)` (the `startAngle`) returns `NaN` under the same
condition (for positive `shaftR`), so the generated boundary is free from
`NaN` coordinates precisely when this quantity is non-negative. -/
def xOffSq (p : KnobParameters) : ℚ := shaftR p * shaftR p - flatY p * flatY p

/-- NaN-freedom of the D-shaft bore computation: the chord intersection
`xOff` and the arc angles are real (not `NaN`) iff `xOffSq` is
non-negative. -/
def dShaftFinite (p : KnobParameters) : Prop := 0 ≤ xOffSq p

instance (p : KnobParameters) : Decidable (dShaftFinite p) := by
  unfold dShaftFinite
  infer_instance

/-- The boundary point set of the D-shaft bore path of `KnobMesh.tsx`:
`holePath.absarc(0, 0, shaftR, endAngle, startAngle, true)` — the clockwise
arc from `endAngle = π − startAngle` down to `startAngle = asin(flatY/shaftR)`,
i.e. the angles `θ ∈ [startAngle, π − startAngle]` — followed by
`lineTo(xOff, flatY); lineTo(-xOff, flatY); closePath()`, the flat chord at
height `flatY` between `x = ±xOff`, `xOff = √(shaftR² − flatY²)`.  (The
`lineTo(xOff, flatY)` connector and the `closePath` segment are degenerate:
the arc endpoints coincide with the chord endpoints.) -/
def dShaftBore (p : KnobParameters) : Set (ℝ × ℝ) :=
  { q | (∃ θ : ℝ, Real.arcsin ((flatY p : ℝ) / (shaftR p : ℝ)) ≤ θ ∧
          θ ≤ Real.pi - Real.arcsin ((flatY p : ℝ) / (shaftR p : ℝ)) ∧
          q = ((shaftR p : ℝ) * Real.cos θ, (shaftR p : ℝ) * Real.sin θ)) ∨
        (∃ t : ℝ, 0 ≤ t ∧ t ≤ 1 ∧
          q = (Real.sqrt ((shaftR p : ℝ) ^ 2 - (flatY p : ℝ) ^ 2) * (1 - 2 * t),
               (flatY p : ℝ))) }

/-- The boundary point set of the Round bore:
`holePath.absarc(0, 0, shaftR, 0, Math.PI * 2, true)` — a full circle of
radius `shaftR`, traversed clockwise. -/
def roundBore (p : KnobParameters) : Set (ℝ × ℝ) :=
  { q | ∃ θ : ℝ, 0 ≤ θ ∧ θ ≤ 2 * Real.pi ∧
        q = ((shaftR p : ℝ) * Real.cos θ, (shaftR p : ℝ) * Real.sin θ) }

/-- Splined bore: `const teeth = 18;`. -/
def splinedTeeth : ℕ := 18

/-- Splined bore: `const outerR = shaftR;`. -/
def splinedOuterR (p : KnobParameters) : ℚ := shaftR p

/-- Splined bore: `const innerR = shaftR * 0.85;`. -/
def splinedInnerR (p : KnobParameters) : ℚ := shaftR p * 0.85

/-- The vertex set of the splined bore star polygon: for
`i = 0 .. teeth*2 - 1`, angle `θ = -(i / (teeth*2)) * 2π` (clockwise) and
radius alternating `outerR` (even `i`) / `innerR` (odd `i`); vertex
`(cos θ * r, sin θ * r)`. -/
def splinedBore (p : KnobParameters) : Set (ℝ × ℝ) :=
  { q | ∃ i : ℕ, i < splinedTeeth * 2 ∧
        q = (Real.cos (-((i : ℝ) / (splinedTeeth * 2)) * (2 * Real.pi)) *
               (if i % 2 = 0 then (splinedOuterR p : ℝ) else (splinedInnerR p : ℝ)),
             Real.sin (-((i : ℝ) / (splinedTeeth * 2)) * (2 * Real.pi)) *
               (if i % 2 = 0 then (splinedOuterR p : ℝ) else (splinedInnerR p : ℝ))) }

/-- The outer boundary point set for the Cylinder shape:
`shape.absarc(0, 0, radius, 0, Math.PI * 2, false)`. -/
def cylinderOuter (p : KnobParameters) : Set (ℝ × ℝ) :=
  { q | ∃ θ : ℝ, 0 ≤ θ ∧ θ ≤ 2 * Real.pi ∧
        q = ((outerRadius p : ℝ) * Real.cos θ, (outerRadius p : ℝ) * Real.sin θ) }

/-! ## Slicing engine (`KnobMesh.tsx`, the `slices` memo) -/

/-- Slicing: `const capHeight = params.hasCap ?
Math.min(params.capHeight, totalHeight - 1) : 0;`. -/
def capHeightEff (p : KnobParameters) : ℚ :=
  if p.hasCap then min p.capHeight (p.height - 1) else 0

/-- Slicing: `const bodyHeight = totalHeight - capHeight;`. -/
def bodyHeightOf (p : KnobParameters) : ℚ := p.height - capHeightEff p

/-- Slicing: `const shaftDepth = Math.min(params.shaftDepth, totalHeight);`. -/
def shaftDepthEff (p : KnobParameters) : ℚ := min p.shaftDepth p.height

/-- Slicing: `const bodyShaftH = Math.min(bodyHeight, shaftDepth);`. -/
def bodyShaftH (p : KnobParameters) : ℚ := min (bodyHeightOf p) (shaftDepthEff p)

/-- Slicing: `const capShaftEnd = Math.min(totalHeight, shaftDepth);`. -/
def capShaftEnd (p : KnobParameters) : ℚ := min p.height (shaftDepthEff p)

/-- Slicing: `const capShaftH = Math.max(0, capShaftEnd - bodyHeight);`. -/
def capShaftH (p : KnobParameters) : ℚ := max 0 (capShaftEnd p - bodyHeightOf p)

/-- Slicing: `const capTopStart = bodyHeight + capShaftH;`. -/
def capTopStart (p : KnobParameters) : ℚ := bodyHeightOf p + capShaftH p

/-- Slicing: `const capTopH = totalHeight - capTopStart;`. -/
def capTopH (p : KnobParameters) : ℚ := p.height - capTopStart p

/-- One entry of the `regions` array built by the `slices` memo:
`{geo: createExtrusion(profile, h), y, color, name}`.  The extruded profile
is recorded by `geoHollow` (`true` when the bored profile `shapeHollow` is
extruded, `false` for the solid outer profile `shapeSolid`) together with the
extrusion depth `h`. -/
structure SliceRegion where
  geoHollow : Bool
  y : ℚ
  h : ℚ
  color : String
  name : String
deriving DecidableEq

/-- Region 1 pushed by `slices`: the body shaft zone, always hollow,
`y = 0`, height `bodyShaftH`, name `"Body_Hollow"`. -/
def regionBodyHollow (p : KnobParameters) : SliceRegion :=
  { geoHollow := true, y := 0, h := bodyShaftH p, color := "#222", name := "Body_Hollow" }

/-- Region 2 pushed by `slices`: the body zone above the shaft hole, solid
iff `closedTop`, `y = bodyShaftH`, height `bodyHeight - bodyShaftH`,
name `"Body_Solid"`. -/
def regionBodySolid (p : KnobParameters) : SliceRegion :=
  { geoHollow := !p.closedTop, y := bodyShaftH p, h := bodyHeightOf p - bodyShaftH p,
    color := "#222", name := "Body_Solid" }

/-- Region 3 pushed by `slices`: the cap shaft zone, always hollow,
`y = bodyHeight`, height `capShaftH`, name `"Cap_Hollow"`. -/
def regionCapHollow (p : KnobParameters) : SliceRegion :=
  { geoHollow := true, y := bodyHeightOf p, h := capShaftH p, color := p.capColor,
    name := "Cap_Hollow" }

/-- Region 4 pushed by `slices`: the cap top zone, solid iff `closedTop`,
`y = capTopStart`, height `capTopH`, name `"Cap_Solid"`. -/
def regionCapTop (p : KnobParameters) : SliceRegion :=
  { geoHollow := !p.closedTop, y := capTopStart p, h := capTopH p, color := p.capColor,
    name := "Cap_Solid" }

/-- The `slices` computation of `KnobMesh.tsx`: regions are pushed in order
(body shaft zone if `bodyShaftH > 0.1`; body solid zone if
`bodyHeight > bodyShaftH + 0.1`; then, if `params.hasCap && capHeight > 0.1`,
the cap shaft zone if `capShaftH > 0.01` and the cap top zone if
`capTopH > 0.01`). -/
def slices (p : KnobParameters) : List SliceRegion :=
  (if 0.1 < bodyShaftH p then [regionBodyHollow p] else []) ++
  (if bodyShaftH p + 0.1 < bodyHeightOf p then [regionBodySolid p] else []) ++
  (if p.hasCap = true ∧ 0.1 < capHeightEff p then
    (if 0.01 < capShaftH p then [regionCapHollow p] else []) ++
    (if 0.01 < capTopH p then [regionCapTop p] else [])
   else [])

/-! ## Enclosure data model (`types/EnclosureTypes.ts`) -/

/-- One entry of the enclosure dimension lookup table. -/
structure EnclosureDefinition where
  name : String
  width : ℚ
  height : ℚ
  length : ℚ
  desc : String
deriving DecidableEq

/-- The `ENCLOSURE_DB` table of `EnclosureTypes.ts`. -/
def ENCLOSURE_DB : List EnclosureDefinition :=
  [ ⟨"1590A", 39, 31, 93, "Micro Pedal"⟩,
    ⟨"1590B", 60, 31, 112, "Standard Pedal"⟩,
    ⟨"1590BB", 94, 34, 119, "Large/Dual Pedal"⟩,
    ⟨"1590BS", 66, 41, 120, "Standard Tall"⟩,
    ⟨"1590DD", 119, 56, 187, "Double Wide"⟩,
    ⟨"1590N1", 66, 40, 121, "Narrow Tall"⟩,
    ⟨"125B", 66, 39, 121, "Square/Large"⟩,
    ⟨"1790NS", 121, 39, 145, "Extra Large"⟩ ]

/-- The `HoleFace` enum. -/
inductive HoleFace where
  | TOP
  | FRONT
  | BACK
  | LEFT
  | RIGHT
  | BOTTOM
deriving DecidableEq

/-- The `ComponentType` enum. -/
inductive ComponentType where
  | POT
  | SWITCH_FOOT
  | SWITCH_TOGGLE
  | JACK_AUDIO
  | JACK_DC
  | LED
  | CUSTOM
deriving DecidableEq

/-- The `DrillHole` record: a face-local hole position (x, y relative to the
face's own center) with a drill diameter. -/
structure DrillHole where
  id : String
  type : ComponentType
  face : HoleFace
  x : ℚ
  y : ℚ
  diameter : ℚ
deriving DecidableEq

/-- The `EnclosureParameters` record. -/
structure EnclosureParameters where
  model : String
  color : String
  cornerRadius : ℚ
  wallThickness : ℚ
  holes : List DrillHole
deriving DecidableEq

/-! ## Drill-template projector (`services/exportService.ts`) -/

/-- Dimension resolution in `generateDrillTemplateSVG`:
`ENCLOSURE_DB.find(e => e.name === params.model) || ENCLOSURE_DB[1]`.
A found `EnclosureDefinition` object is always truthy, so the `||` fallback
fires exactly when `find` returns `undefined`. -/
def resolveSpecs (model : String) : EnclosureDefinition :=
  (ENCLOSURE_DB.find? (fun e => e.name == model)).getD (ENCLOSURE_DB.get ⟨1, by decide⟩)

/-- An SVG rectangle `{x, y, w, h}` (top-left corner plus size). -/
structure Rect where
  x : ℚ
  y : ℚ
  w : ℚ
  h : ℚ
deriving DecidableEq

/-- An SVG circle. -/
structure Circle where
  cx : ℚ
  cy : ℚ
  r : ℚ
deriving DecidableEq

/-- An SVG line segment (used for the crosshairs). -/
structure Seg where
  x1 : ℚ
  y1 : ℚ
  x2 : ℚ
  y2 : ℚ
deriving DecidableEq

/-- The TOP face rectangle:
`{ x: cx - W/2, y: cy - L/2, w: W, h: L }` with `cx = 300, cy = 300`. -/
def topRect (specs : EnclosureDefinition) : Rect :=
  { x := 300 - specs.width / 2, y := 300 - specs.length / 2,
    w := specs.width, h := specs.length }

/-- The RIGHT face rectangle:
`{ x: topRect.x + W + pad, y: topRect.y, w: H, h: L }` with `pad = 20`. -/
def rightRect (specs : EnclosureDefinition) : Rect :=
  { x := (topRect specs).x + specs.width + 20, y := (topRect specs).y,
    w := specs.height, h := specs.length }

/-- The LEFT face rectangle:
`{ x: topRect.x - pad - H, y: topRect.y, w: H, h: L }`. -/
def leftRect (specs : EnclosureDefinition) : Rect :=
  { x := (topRect specs).x - 20 - specs.height, y := (topRect specs).y,
    w := specs.height, h := specs.length }

/-- The BACK face rectangle:
`{ x: topRect.x, y: topRect.y - pad - H, w: W, h: H }`. -/
def backRect (specs : EnclosureDefinition) : Rect :=
  { x := (topRect specs).x, y := (topRect specs).y - 20 - specs.height,
    w := specs.width, h := specs.height }

/-- The FRONT face rectangle:
`{ x: topRect.x, y: topRect.y + L + pad, w: W, h: H }`. -/
def frontRect (specs : EnclosureDefinition) : Rect :=
  { x := (topRect specs).x, y := (topRect specs).y + specs.length + 20,
    w := specs.width, h := specs.height }

/-- The per-face hole-center mapping inside `drawFace`: starting from the
face-rectangle center `(cx, cy)`, the hole's face-local `(x, y)` offsets are
applied per face (TOP `(x, y)`, RIGHT `(y, x)`, LEFT `(−y, x)`,
FRONT `(x, y)`, BACK `(x, −y)`).  The `BOTTOM` branch is the dead default
`hx = cx; hy = cy` — `drawFace` is never invoked for `BOTTOM`. -/
def holeCenterOnFace (cx cy : ℚ) (face : HoleFace) (h : DrillHole) : ℚ × ℚ :=
  match face with
  | HoleFace.TOP => (cx + h.x, cy + h.y)
  | HoleFace.RIGHT => (cx + h.y, cy + h.x)
  | HoleFace.LEFT => (cx - h.y, cy + h.x)
  | HoleFace.FRONT => (cx + h.x, cy + h.y)
  | HoleFace.BACK => (cx + h.x, cy - h.y)
  | HoleFace.BOTTOM => (cx, cy)

/-- The drill circles drawn by one `drawFace(name, rect, faceEnum)` call:
holes are filtered by `h.face === faceEnum` and each is drawn as a circle of
radius `h.diameter / 2` at the mapped center. -/
def drawFaceCircles (params : EnclosureParameters) (rect : Rect)
    (faceEnum : HoleFace) : List Circle :=
  let cx := rect.x + rect.w / 2
  let cy := rect.y + rect.h / 2
  (params.holes.filter (fun h => h.face == faceEnum)).map fun h =>
    let c := holeCenterOnFace cx cy faceEnum h
    { cx := c.1, cy := c.2, r := h.diameter / 2 }

/-- All drill circles of the generated template, in the `drawFace` call
order of `generateDrillTemplateSVG`: TOP, RIGHT, LEFT, BACK, FRONT.  No
`drawFace` call exists for `BOTTOM`. -/
def drillTemplateCircles (params : EnclosureParameters) : List Circle :=
  let specs := resolveSpecs params.model
  drawFaceCircles params (topRect specs) HoleFace.TOP ++
  drawFaceCircles params (rightRect specs) HoleFace.RIGHT ++
  drawFaceCircles params (leftRect specs) HoleFace.LEFT ++
  drawFaceCircles params (backRect specs) HoleFace.BACK ++
  drawFaceCircles params (frontRect specs) HoleFace.FRONT

/-- The crosshair of one drill circle: the two perpendicular segments
`(hx−r, hy)–(hx+r, hy)` and `(hx, hy−r)–(hx, hy+r)` through its center. -/
def crosshairSegs (c : Circle) : Seg × Seg :=
  (⟨c.cx - c.r, c.cy, c.cx + c.r, c.cy⟩, ⟨c.cx, c.cy - c.r, c.cx, c.cy + c.r⟩)

/-- The crosshairs of the generated template (one pair per drill circle). -/
def drillTemplateCrosshairs (params : EnclosureParameters) : List (Seg × Seg) :=
  (drillTemplateCircles params).map crosshairSegs

/-- The face-outline rectangles drawn by the template generator, in call
order; these are drawn unconditionally, so a template is always complete
(five face rectangles) whatever the model string resolves to. -/
def drillTemplateFaceRects (params : EnclosureParameters) : List Rect :=
  let specs := resolveSpecs params.model
  [topRect specs, rightRect specs, leftRect specs, backRect specs, frontRect specs]

/-- The drawn face rectangle assigned to a hole's face (`none` for `BOTTOM`,
which has no rectangle in the template). -/
def faceRectFor (specs : EnclosureDefinition) (face : HoleFace) : Option Rect :=
  match face with
  | HoleFace.TOP => some (topRect specs)
  | HoleFace.RIGHT => some (rightRect specs)
  | HoleFace.LEFT => some (leftRect specs)
  | HoleFace.BACK => some (backRect specs)
  | HoleFace.FRONT => some (frontRect specs)
  | HoleFace.BOTTOM => none

/-! ## Application shell state (`App.tsx`): project load and STL export -/

/-- The parsed shape of a project file, as consumed by `handleLoadProject`:
`project.mode`, `project.knob`, `project.enclosure` are each applied only
when present (truthy). -/
structure Project where
  mode : Option String
  knob : Option KnobParameters
  enclosure : Option EnclosureParameters

/-- The application state touched by `handleLoadProject`: both parameter
records, their snapshot histories with indices, the mode, and the last toast
message `(text, kind)`. -/
structure AppState where
  appMode : String
  knobParams : KnobParameters
  knobHistory : List KnobParameters
  knobHistoryIndex : ℕ
  enclosureParams : EnclosureParameters
  enclosureHistory : List EnclosureParameters
  enclosureHistoryIndex : ℕ
  toast : Option (String × String)

/-- The `reader.onload` body of `handleLoadProject`.  `JSON.parse` is an
external JavaScript builtin; its outcome on the file content is passed in as
`parsed` (`Except.error` when `JSON.parse` throws).  On a parse failure the
`catch` block only shows an error toast; every state setter
(`setAppMode`, `setKnobParams`, `setKnobHistory`, ...) sits after the parse
inside the `try` block. -/
def handleLoadProject (s : AppState) (parsed : Except Unit Project) : AppState :=
  match parsed with
  | Except.error _ =>
      { s with toast := some ("Failed to load project. Invalid file format.", "error") }
  | Except.ok project =>
      let s1 := match project.mode with
        | some m => { s with appMode := m }
        | none => s
      let s2 := match project.knob with
        | some k => { s1 with knobParams := k, knobHistory := [k], knobHistoryIndex := 0 }
        | none => s1
      let s3 := match project.enclosure with
        | some e => { s2 with enclosureParams := e, enclosureHistory := [e],
                              enclosureHistoryIndex := 0 }
        | none => s2
      { s3 with toast := some ("Project loaded successfully!", "success") }

/-- One object of the scene graph traversed by `handleExportSTL`
(`group.traverse` visits each child once, in a fixed order). -/
structure SceneObject where
  name : String
  visible : Bool
deriving DecidableEq

/-- JavaScript `String.prototype.includes`: substring containment. -/
def jsIncludes (s sub : String) : Bool :=
  s.toList.tails.any (fun t => sub.toList.isPrefixOf t)

/-- The per-object hiding rule of the first `group.traverse` in
`handleExportSTL`: in knob mode, a `'body'` export hides objects whose name
includes `"Cap"`, and a `'cap'` export hides objects whose name includes
`"Body"` or `"Skirt"`. -/
def hideForExport (appMode ty : String) (o : SceneObject) : SceneObject :=
  if appMode = "knob" then
    if ty = "body" then
      (if jsIncludes o.name "Cap" then { o with visible := false } else o)
    else if ty = "cap" then
      (if jsIncludes o.name "Body" || jsIncludes o.name "Skirt" then
        { o with visible := false }
       else o)
    else o
  else o

/-- The scene-graph effect of `handleExportSTL` on its success path: the
first traverse records every child's `visible` flag in `originalVis` and
applies the hiding rule; `exporter.parse` serializes the visible objects;
the second traverse restores each child's `visible` flag from `originalVis`
(every child was recorded, so `has` is always true).  Returns the scene
after restoration together with the names of the objects that were visible
when the STL blob was produced. -/
def handleExportSTL (appMode ty : String) (scene : List SceneObject) :
    List SceneObject × List String :=
  let originalVis := scene.map (fun o => o.visible)
  let hidden := scene.map (hideForExport appMode ty)
  let exported := (hidden.filter (fun o => o.visible)).map (fun o => o.name)
  let restored := hidden.zipWith (fun o v => { o with visible := v }) originalVis
  (restored, exported)

/-! ## Concrete parameter records used by the theorems below -/

/-- Round-shaft knob with the default nominal values
(`shaftDiameter = 6`, `holeTolerance = 0.15`). -/
def knobC1 : KnobParameters := { DEFAULT_KNOB with shaftType := ShaftType.ROUND }

/-- A valid knob (`0 < height`, `shaftDepth ≤ height`) whose total height is
below the 0.1mm body epsilon: `height = shaftDepth = 0.1`. -/
def knobC2cex : KnobParameters := { DEFAULT_KNOB with height := 0.1, shaftDepth := 0.1 }

/-- D-shaft knob with the standard Alpha flat (`dFlatSize = 4.5`,
`shaftDiameter = 6`, so `dFlatSize ∈ (3, 6)`), default tolerance. -/
def knobC4 : KnobParameters := { DEFAULT_KNOB with shaftType := ShaftType.D_SHAFT }

/-- D-shaft knob with a degenerate flat: `dFlatSize = 7 > shaftDiameter = 6`,
placing the flat chord entirely off the bore circle. -/
def knobC5 : KnobParameters :=
  { DEFAULT_KNOB with shaftType := ShaftType.D_SHAFT, dFlatSize := 7 }

/-- Capped knob: default knob with `hasCap = true`
(`capHeight = 3`, `height = 18`, `shaftDepth = 14`). -/
def knobC8cex : KnobParameters := { DEFAULT_KNOB with hasCap := true }

/-- Capped knob whose shaft reaches into the cap (`shaftDepth = 16`,
`bodyHeight = 15`), so both cap regions survive. -/
def knobC8wit : KnobParameters :=
  { DEFAULT_KNOB with hasCap := true, shaftDepth := 16 }

/-- The single TOP drill hole of the concrete template scenario:
face-local position `(0, −30)`, diameter 12. -/
def encC6hole : DrillHole :=
  { id := "h1", type := ComponentType.SWITCH_FOOT, face := HoleFace.TOP,
    x := 0, y := -30, diameter := 12 }

/-- Enclosure for the concrete template scenario: a 1590B with one TOP hole
at `(0, −30)`, diameter 12. -/
def encC6 : EnclosureParameters :=
  { model := "1590B", color := "#cccccc", cornerRadius := 4, wallThickness := 2,
    holes := [encC6hole] }

/-- Enclosure with a single `BOTTOM`-face hole. -/
def encC6cex : EnclosureParameters :=
  { model := "1590B", color := "#cccccc", cornerRadius := 4, wallThickness := 2,
    holes := [{ id := "hb", type := ComponentType.CUSTOM, face := HoleFace.BOTTOM,
                x := 0, y := 0, diameter := 12 }] }

/-- Enclosure whose model string appears nowhere in `ENCLOSURE_DB`. -/
def encC9 : EnclosureParameters :=
  { model := "NoSuchBox", color := "#cccccc", cornerRadius := 4, wallThickness := 2,
    holes := [] }

/-! ## Shared geometric helper lemmas -/

/-- A point `(r·c, r·s)` with `s² + c² = 1` lies on the circle of
radius `r`. -/
theorem circle_sq_mul_left (r c s : ℝ) (h : s ^ 2 + c ^ 2 = 1) :
    (r * c) ^ 2 + (r * s) ^ 2 = r ^ 2 := by nlinarith

/-- A point `(c·r, s·r)` with `s² + c² = 1` lies on the circle of
radius `r`. -/
theorem circle_sq_mul_right (r c s : ℝ) (h : s ^ 2 + c ^ 2 = 1) :
    (c * r) ^ 2 + (s * r) ^ 2 = r ^ 2 := by nlinarith

/-- The region list is empty when all three region guards fail. -/
theorem slices_nil_of (p : KnobParameters) (h1 : ¬ (0.1 : ℚ) < bodyShaftH p)
    (h2 : ¬ bodyShaftH p + 0.1 < bodyHeightOf p)
    (h3 : ¬ (p.hasCap = true ∧ (0.1 : ℚ) < capHeightEff p)) :
    slices p = [] := by
  unfold slices
  rw [if_neg h1, if_neg h2, if_neg h3]
  rfl

/-- The region list for an uncapped knob whose two body regions both
survive their guards. -/
theorem slices_body_only (p : KnobParameters) (h1 : (0.1 : ℚ) < bodyShaftH p)
    (h2 : bodyShaftH p + 0.1 < bodyHeightOf p) (h3 : p.hasCap = false) :
    slices p = [regionBodyHollow p, regionBodySolid p] := by
  unfold slices
  rw [if_pos h1, if_pos h2, if_neg (by simp [h3])]
  rfl

/-! ## Claim theorems -/

/-- C1: the Round bore drawn by `KnobMesh.tsx` is a circle of radius
`shaftR = shaftDiameter / 2` — the `holeTolerance` parameter is never added,
so at the default `shaftDiameter = 6`, `holeTolerance = 0.15` the bore
radius is 3mm where the specified radius `shaftDiameter/2 + holeTolerance`
is 3.15mm.  (The radius is indeed independent of the pointer/indicator
settings, and every bore boundary point lies at distance `shaftR` from the
center.) -/
theorem C1_round_bore_radius_bug :
    shaftR knobC1 = 3 ∧
    knobC1.shaftDiameter / 2 + knobC1.holeTolerance = 3.15 ∧
    shaftR knobC1 ≠ knobC1.shaftDiameter / 2 + knobC1.holeTolerance ∧
    (∀ q ∈ roundBore knobC1, q.1 ^ 2 + q.2 ^ 2 = 9) ∧
    shaftR { knobC1 with pointerIndent := false, pointerColor := "#000000" } =
      shaftR knobC1 := by
  refine ⟨by norm_num [shaftR, knobC1, DEFAULT_KNOB],
          by norm_num [knobC1, DEFAULT_KNOB],
          by norm_num [shaftR, knobC1, DEFAULT_KNOB], ?_, rfl⟩
  rintro q ⟨θ, -, -, rfl⟩
  have hr : ((shaftR knobC1 : ℚ) : ℝ) = 3 := by
    norm_num [shaftR, knobC1, DEFAULT_KNOB]
  dsimp only
  rw [hr, circle_sq_mul_left 3 _ _ (Real.sin_sq_add_cos_sq θ)]
  norm_num

/-- C2 counterexample: at `height = shaftDepth = 0.1` (a valid record with
`0 < height` and `shaftDepth ≤ height`) every candidate region falls below
the epsilon and the region list is empty, refuting non-emptiness for all
`height > 0`. -/
theorem C2_nonempty_cex :
    (0 : ℚ) < knobC2cex.height ∧
    knobC2cex.shaftDepth ≤ knobC2cex.height ∧
    (0 : ℚ) ≤ knobC2cex.shaftDepth ∧
    slices knobC2cex = [] := by
  have hbs : bodyShaftH knobC2cex = 0.1 := by
    norm_num [bodyShaftH, bodyHeightOf, capHeightEff, shaftDepthEff, knobC2cex,
      DEFAULT_KNOB, min_def]
  have hbh : bodyHeightOf knobC2cex = 0.1 := by
    norm_num [bodyHeightOf, capHeightEff, knobC2cex, DEFAULT_KNOB]
  refine ⟨by norm_num [knobC2cex, DEFAULT_KNOB], by norm_num [knobC2cex, DEFAULT_KNOB],
          by norm_num [knobC2cex, DEFAULT_KNOB], ?_⟩
  apply slices_nil_of
  · rw [hbs]
    norm_num
  · rw [hbs, hbh]
    norm_num
  · rintro ⟨hc, -⟩
    have : knobC2cex.hasCap = false := by norm_num [knobC2cex, DEFAULT_KNOB]
    simp [this] at hc

/-- C3: on the concrete scenario (which is exactly `DEFAULT_KNOB`:
diameter 20, height 18, Cylinder, closedTop, no cap, Splined shaft 6mm,
depth 14, tolerance 0.15) the build returns exactly two regions —
`Body_Hollow` over `[0, 14)` with a bored cross-section and `Body_Solid`
over `[14, 18)` with the solid cross-section of radius 10mm — but the
splined bore's outer radius is `shaftR = 3`mm, not the specified
`shaftDiameter/2 + holeTolerance = 3.15`mm: the tolerance is ignored.
Every splined bore vertex lies at radius 3 (tooth tips) or 2.55 (roots). -/
theorem C3_concrete_scenario_bug :
    (slices DEFAULT_KNOB).map (fun r => (r.name, r.y, r.h, r.geoHollow)) =
      [("Body_Hollow", (0 : ℚ), (14 : ℚ), true), ("Body_Solid", 14, 4, false)] ∧
    splinedOuterR DEFAULT_KNOB = 3 ∧
    DEFAULT_KNOB.shaftDiameter / 2 + DEFAULT_KNOB.holeTolerance = 3.15 ∧
    splinedOuterR DEFAULT_KNOB ≠
      DEFAULT_KNOB.shaftDiameter / 2 + DEFAULT_KNOB.holeTolerance ∧
    outerRadius DEFAULT_KNOB = 10 ∧
    (∀ q ∈ cylinderOuter DEFAULT_KNOB, q.1 ^ 2 + q.2 ^ 2 = 100) ∧
    (∀ q ∈ splinedBore DEFAULT_KNOB,
      q.1 ^ 2 + q.2 ^ 2 = 9 ∨ q.1 ^ 2 + q.2 ^ 2 = 6.5025) := by
  have hbs : bodyShaftH DEFAULT_KNOB = 14 := by
    norm_num [bodyShaftH, bodyHeightOf, capHeightEff, shaftDepthEff, DEFAULT_KNOB, min_def]
  have hbh : bodyHeightOf DEFAULT_KNOB = 18 := by
    norm_num [bodyHeightOf, capHeightEff, DEFAULT_KNOB]
  have hslice : slices DEFAULT_KNOB = [regionBodyHollow DEFAULT_KNOB, regionBodySolid DEFAULT_KNOB] := by
    apply slices_body_only
    · rw [hbs]
      norm_num
    · rw [hbs, hbh]
      norm_num
    · rfl
  refine ⟨?_, by norm_num [splinedOuterR, shaftR, DEFAULT_KNOB],
          by norm_num [DEFAULT_KNOB],
          by norm_num [splinedOuterR, shaftR, DEFAULT_KNOB],
          by norm_num [outerRadius, DEFAULT_KNOB], ?_, ?_⟩
  · rw [hslice]
    simp only [List.map_cons, List.map_nil, regionBodyHollow, regionBodySolid]
    rw [hbs, hbh]
    norm_num [DEFAULT_KNOB]
  · rintro q ⟨θ, -, -, rfl⟩
    have hr : ((outerRadius DEFAULT_KNOB : ℚ) : ℝ) = 10 := by
      norm_num [outerRadius, DEFAULT_KNOB]
    dsimp only
    rw [hr, circle_sq_mul_left 10 _ _ (Real.sin_sq_add_cos_sq θ)]
    norm_num
  · rintro q ⟨i, -, rfl⟩
    have hO : ((splinedOuterR DEFAULT_KNOB : ℚ) : ℝ) = 3 := by
      norm_num [splinedOuterR, shaftR, DEFAULT_KNOB]
    have hI : ((splinedInnerR DEFAULT_KNOB : ℚ) : ℝ) = 2.55 := by
      norm_num [splinedInnerR, shaftR, DEFAULT_KNOB]
    by_cases hi : i % 2 = 0
    · left
      dsimp only
      rw [if_pos hi, hO, circle_sq_mul_right 3 _ _ (Real.sin_sq_add_cos_sq _)]
      norm_num
    · right
      dsimp only
      rw [if_neg hi, hI, circle_sq_mul_right 2.55 _ _ (Real.sin_sq_add_cos_sq _)]
      norm_num

/-- C5: for the D-shaft with `shaftDiameter = 6` and `dFlatSize = 7` (both
non-negative), the argument of `Math.sqrt` in the chord computation is
`3² − 4² = −7 < 0`, so `xOff` (and `startAngle = asin(−4/3)`) is `NaN`:
no degenerate-flat fallback to a circular bore exists in the code. -/
theorem C5_dshaft_nan_bug :
    knobC5.shaftType = ShaftType.D_SHAFT ∧
    (0 : ℚ) ≤ knobC5.dFlatSize ∧
    (0 : ℚ) ≤ knobC5.shaftDiameter ∧
    xOffSq knobC5 = -7 ∧
    ¬ dShaftFinite knobC5 := by
  have hx : xOffSq knobC5 = -7 := by
    norm_num [xOffSq, shaftR, flatY, centerToFlat, knobC5, DEFAULT_KNOB]
  refine ⟨rfl, by norm_num [knobC5, DEFAULT_KNOB], by norm_num [knobC5, DEFAULT_KNOB],
          hx, ?_⟩
  unfold dShaftFinite
  rw [hx]
  norm_num

/-- C6 counterexample: a hole assigned to the `BOTTOM` face is never drawn —
the template generated for an enclosure whose only hole sits on `BOTTOM`
contains no drill circle at all. -/
theorem C6_bottom_hole_cex :
    encC6cex.holes ≠ [] ∧ drillTemplateCircles encC6cex = [] := by decide

/-- Membership of one hole's circle in its face's `drawFace` output. -/
theorem mem_drawFaceCircles (params : EnclosureParameters) (rect : Rect)
    (fe : HoleFace) (h : DrillHole) (hmem : h ∈ params.holes)
    (hface : h.face = fe) :
    ({ cx := (holeCenterOnFace (rect.x + rect.w / 2) (rect.y + rect.h / 2) fe h).1,
       cy := (holeCenterOnFace (rect.x + rect.w / 2) (rect.y + rect.h / 2) fe h).2,
       r := h.diameter / 2 } : Circle) ∈ drawFaceCircles params rect fe := by
  unfold drawFaceCircles
  simp only [List.mem_map]
  refine ⟨h, ?_, rfl⟩
  simp [List.mem_filter, hmem, hface]

/-- C6 (amended): every hole assigned to one of the five drawn faces
(TOP, RIGHT, LEFT, BACK, FRONT) is drawn as a circle of radius
`diameter / 2`, with a crosshair, centered at its face rectangle's center
offset by the face-specific mapping of the hole's local `(x, y)`
(TOP `(x, y)`, RIGHT `(y, x)`, LEFT `(−y, x)`, FRONT `(x, y)`,
BACK `(x, −y)`); holes assigned to `BOTTOM` have no face rectangle and are
not drawn. -/
theorem C6_face_mapping (params : EnclosureParameters) (h : DrillHole)
    (hmem : h ∈ params.holes) (rect : Rect)
    (hrect : faceRectFor (resolveSpecs params.model) h.face = some rect) :
    ({ cx := (holeCenterOnFace (rect.x + rect.w / 2) (rect.y + rect.h / 2) h.face h).1,
       cy := (holeCenterOnFace (rect.x + rect.w / 2) (rect.y + rect.h / 2) h.face h).2,
       r := h.diameter / 2 } : Circle) ∈ drillTemplateCircles params ∧
    crosshairSegs
      { cx := (holeCenterOnFace (rect.x + rect.w / 2) (rect.y + rect.h / 2) h.face h).1,
        cy := (holeCenterOnFace (rect.x + rect.w / 2) (rect.y + rect.h / 2) h.face h).2,
        r := h.diameter / 2 } ∈ drillTemplateCrosshairs params := by
  have main :
      ({ cx := (holeCenterOnFace (rect.x + rect.w / 2) (rect.y + rect.h / 2) h.face h).1,
         cy := (holeCenterOnFace (rect.x + rect.w / 2) (rect.y + rect.h / 2) h.face h).2,
         r := h.diameter / 2 } : Circle) ∈ drillTemplateCircles params := by
    cases hf : h.face with
    | TOP =>
        rw [hf] at hrect
        simp only [faceRectFor, Option.some.injEq] at hrect
        subst hrect
        have hm := mem_drawFaceCircles params (topRect (resolveSpecs params.model))
          HoleFace.TOP h hmem hf
        unfold drillTemplateCircles
        simp only [List.mem_append]
        exact Or.inl (Or.inl (Or.inl (Or.inl hm)))
    | RIGHT =>
        rw [hf] at hrect
        simp only [faceRectFor, Option.some.injEq] at hrect
        subst hrect
        have hm := mem_drawFaceCircles params (rightRect (resolveSpecs params.model))
          HoleFace.RIGHT h hmem hf
        unfold drillTemplateCircles
        simp only [List.mem_append]
        exact Or.inl (Or.inl (Or.inl (Or.inr hm)))
    | LEFT =>
        rw [hf] at hrect
        simp only [faceRectFor, Option.some.injEq] at hrect
        subst hrect
        have hm := mem_drawFaceCircles params (leftRect (resolveSpecs params.model))
          HoleFace.LEFT h hmem hf
        unfold drillTemplateCircles
        simp only [List.mem_append]
        exact Or.inl (Or.inl (Or.inr hm))
    | BACK =>
        rw [hf] at hrect
        simp only [faceRectFor, Option.some.injEq] at hrect
        subst hrect
        have hm := mem_drawFaceCircles params (backRect (resolveSpecs params.model))
          HoleFace.BACK h hmem hf
        unfold drillTemplateCircles
        simp only [List.mem_append]
        exact Or.inl (Or.inr hm)
    | FRONT =>
        rw [hf] at hrect
        simp only [faceRectFor, Option.some.injEq] at hrect
        subst hrect
        have hm := mem_drawFaceCircles params (frontRect (resolveSpecs params.model))
          HoleFace.FRONT h hmem hf
        unfold drillTemplateCircles
        simp only [List.mem_append]
        exact Or.inr hm
    | BOTTOM =>
        rw [hf] at hrect
        simp [faceRectFor] at hrect
  exact ⟨main, List.mem_map_of_mem crosshairSegs main⟩

/-- C6 witness: the concrete scenario — a 1590B with one TOP hole at
`(0, −30)`, diameter 12 — yields a circle of radius 6 at
`(topFaceCenterX + 0, topFaceCenterY − 30) = (300, 270)`. -/
theorem C6_face_mapping_witness :
    (encC6hole ∈ encC6.holes ∧
     faceRectFor (resolveSpecs encC6.model) encC6hole.face =
       some (topRect (resolveSpecs encC6.model))) ∧
    ((⟨300, 270, 6⟩ : Circle) ∈ drillTemplateCircles encC6 ∧
     crosshairSegs ⟨300, 270, 6⟩ ∈ drillTemplateCrosshairs encC6) := by
  have hmem : encC6hole ∈ encC6.holes := by simp [encC6]
  have hrect : faceRectFor (resolveSpecs encC6.model) encC6hole.face =
      some (topRect (resolveSpecs encC6.model)) := rfl
  have h1 := C6_face_mapping encC6 encC6hole hmem (topRect (resolveSpecs encC6.model)) hrect
  have hspec : resolveSpecs encC6.model = ⟨"1590B", 60, 31, 112, "Standard Pedal"⟩ := rfl
  have he :
      ({ cx := (holeCenterOnFace ((topRect (resolveSpecs encC6.model)).x +
                  (topRect (resolveSpecs encC6.model)).w / 2)
                ((topRect (resolveSpecs encC6.model)).y +
                  (topRect (resolveSpecs encC6.model)).h / 2)
                encC6hole.face encC6hole).1,
         cy := (holeCenterOnFace ((topRect (resolveSpecs encC6.model)).x +
                  (topRect (resolveSpecs encC6.model)).w / 2)
                ((topRect (resolveSpecs encC6.model)).y +
                  (topRect (resolveSpecs encC6.model)).h / 2)
                encC6hole.face encC6hole).2,
         r := encC6hole.diameter / 2 } : Circle) = ⟨300, 270, 6⟩ := by
    rw [hspec]
    simp only [topRect, holeCenterOnFace, encC6hole, Circle.mk.injEq]
    norm_num
  rw [he] at h1
  exact ⟨⟨hmem, hrect⟩, h1⟩

/-- C7: when `JSON.parse` fails on the selected file, `handleLoadProject`
leaves the knob parameters, enclosure parameters, both histories and their
indices, and the app mode completely unchanged, and reports the failure with
a recoverable error toast. -/
theorem C7_load_parse_failure_no_mutation (s : AppState) (e : Unit) :
    (handleLoadProject s (Except.error e)).knobParams = s.knobParams ∧
    (handleLoadProject s (Except.error e)).knobHistory = s.knobHistory ∧
    (handleLoadProject s (Except.error e)).knobHistoryIndex = s.knobHistoryIndex ∧
    (handleLoadProject s (Except.error e)).enclosureParams = s.enclosureParams ∧
    (handleLoadProject s (Except.error e)).enclosureHistory = s.enclosureHistory ∧
    (handleLoadProject s (Except.error e)).enclosureHistoryIndex =
      s.enclosureHistoryIndex ∧
    (handleLoadProject s (Except.error e)).appMode = s.appMode ∧
    (handleLoadProject s (Except.error e)).toast =
      some ("Failed to load project. Invalid file format.", "error") :=
  ⟨rfl, rfl, rfl, rfl, rfl, rfl, rfl, rfl⟩

/-- C8 counterexample: on the default knob with a cap, the topmost cap
region is labeled `"Cap_Solid"`, not `"Cap_Top"`. -/
theorem C8_cap_label_cex :
    (slices knobC8cex).map SliceRegion.name =
      ["Body_Hollow", "Body_Solid", "Cap_Solid"] ∧
    ("Cap_Solid" : String) ≠ "Cap_Top" := by
  have hce : capHeightEff knobC8cex = 3 := by
    norm_num [capHeightEff, knobC8cex, DEFAULT_KNOB, min_def]
  have hbh : bodyHeightOf knobC8cex = 15 := by
    rw [bodyHeightOf, hce]
    norm_num [knobC8cex, DEFAULT_KNOB]
  have hsd : shaftDepthEff knobC8cex = 14 := by
    norm_num [shaftDepthEff, knobC8cex, DEFAULT_KNOB, min_def]
  have hbs : bodyShaftH knobC8cex = 14 := by
    rw [bodyShaftH, hbh, hsd]
    norm_num [min_def]
  have hcse : capShaftEnd knobC8cex = 14 := by
    rw [capShaftEnd, hsd]
    norm_num [knobC8cex, DEFAULT_KNOB, min_def]
  have hcsh : capShaftH knobC8cex = 0 := by
    rw [capShaftH, hcse, hbh]
    norm_num [max_def]
  have hcth : capTopH knobC8cex = 3 := by
    rw [capTopH, capTopStart, hbh, hcsh]
    norm_num [knobC8cex, DEFAULT_KNOB]
  constructor
  · unfold slices
    rw [if_pos (by rw [hbs]; norm_num),
        if_pos (by rw [hbs, hbh]; norm_num),
        if_pos (And.intro (show knobC8cex.hasCap = true from rfl)
          (by rw [hce]; norm_num)),
        if_neg (by rw [hcsh]; norm_num),
        if_pos (by rw [hcth]; norm_num)]
    rfl
  · decide

/-- C8 (amended): when the cap survives the epsilon check, the cap
shaft-zone region (when it survives its own 0.01 epsilon) is labeled
`"Cap_Hollow"` and sits at the body/cap boundary, and the topmost cap region
(when it survives) is the last region of the list and is labeled
`"Cap_Solid"` (not `"Cap_Top"`). -/
theorem C8_cap_labels (p : KnobParameters) (hcap : p.hasCap = true)
    (hce : 0.1 < capHeightEff p) :
    (0.01 < capShaftH p →
      regionCapHollow p ∈ slices p ∧ (regionCapHollow p).name = "Cap_Hollow" ∧
      (regionCapHollow p).y = bodyHeightOf p ∧ (regionCapHollow p).h = capShaftH p) ∧
    (0.01 < capTopH p →
      (slices p).getLast? = some (regionCapTop p) ∧
      (regionCapTop p).name = "Cap_Solid" ∧
      (regionCapTop p).y = capTopStart p ∧ (regionCapTop p).h = capTopH p) := by
  constructor
  · intro h4
    refine ⟨?_, rfl, rfl, rfl⟩
    unfold slices
    refine List.mem_append_right _ ?_
    rw [if_pos (And.intro hcap hce)]
    exact List.mem_append_left _ (by rw [if_pos h4]; exact List.mem_singleton_self _)
  · intro h5
    refine ⟨?_, rfl, rfl, rfl⟩
    have hsplit : slices p =
        ((if 0.1 < bodyShaftH p then [regionBodyHollow p] else []) ++
         ((if bodyShaftH p + 0.1 < bodyHeightOf p then [regionBodySolid p] else []) ++
          (if 0.01 < capShaftH p then [regionCapHollow p] else []))) ++
        [regionCapTop p] := by
      unfold slices
      rw [if_pos (And.intro hcap hce), if_pos h5]
      simp [List.append_assoc]
    rw [hsplit]
    exact List.getLast?_concat _

/-- C8 witness: on a capped knob whose shaft reaches into the cap
(`shaftDepth = 16 > bodyHeight = 15`) both cap regions survive, with
`Cap_Hollow` at the body/cap boundary and `Cap_Solid` topmost. -/
theorem C8_cap_labels_witness :
    (knobC8wit.hasCap = true ∧ (0.1 : ℚ) < capHeightEff knobC8wit) ∧
    ((0.01 < capShaftH knobC8wit →
      regionCapHollow knobC8wit ∈ slices knobC8wit ∧
      (regionCapHollow knobC8wit).name = "Cap_Hollow" ∧
      (regionCapHollow knobC8wit).y = bodyHeightOf knobC8wit ∧
      (regionCapHollow knobC8wit).h = capShaftH knobC8wit) ∧
    (0.01 < capTopH knobC8wit →
      (slices knobC8wit).getLast? = some (regionCapTop knobC8wit) ∧
      (regionCapTop knobC8wit).name = "Cap_Solid" ∧
      (regionCapTop knobC8wit).y = capTopStart knobC8wit ∧
      (regionCapTop knobC8wit).h = capTopH knobC8wit)) :=
  ⟨⟨rfl, by norm_num [capHeightEff, knobC8wit, DEFAULT_KNOB, min_def]⟩,
   C8_cap_labels knobC8wit rfl
     (by norm_num [capHeightEff, knobC8wit, DEFAULT_KNOB, min_def])⟩

/-- C9: an unrecognized enclosure model name silently resolves to
`ENCLOSURE_DB[1]` (the 1590B entry) and the template generator still
produces a complete five-face result. -/
theorem C9_unknown_model_fallback (params : EnclosureParameters)
    (hunknown : ∀ e ∈ ENCLOSURE_DB, e.name ≠ params.model) :
    resolveSpecs params.model = ⟨"1590B", 60, 31, 112, "Standard Pedal"⟩ ∧
    drillTemplateFaceRects params =
      [topRect ⟨"1590B", 60, 31, 112, "Standard Pedal"⟩,
       rightRect ⟨"1590B", 60, 31, 112, "Standard Pedal"⟩,
       leftRect ⟨"1590B", 60, 31, 112, "Standard Pedal"⟩,
       backRect ⟨"1590B", 60, 31, 112, "Standard Pedal"⟩,
       frontRect ⟨"1590B", 60, 31, 112, "Standard Pedal"⟩] ∧
    (drillTemplateFaceRects params).length = 5 := by
  have hfind : ENCLOSURE_DB.find? (fun e => e.name == params.model) = none := by
    rw [List.find?_eq_none]
    intro x hx
    simpa using hunknown x hx
  have hres : resolveSpecs params.model = ⟨"1590B", 60, 31, 112, "Standard Pedal"⟩ := by
    unfold resolveSpecs
    rw [hfind]
    rfl
  refine ⟨hres, ?_, ?_⟩
  · unfold drillTemplateFaceRects
    rw [hres]
  · unfold drillTemplateFaceRects
    rfl

/-- C9 witness: the model string `"NoSuchBox"` is not in the table and falls
back to the 1590B entry with a complete five-face template. -/
theorem C9_unknown_model_fallback_witness :
    (∀ e ∈ ENCLOSURE_DB, e.name ≠ encC9.model) ∧
    (resolveSpecs encC9.model = ⟨"1590B", 60, 31, 112, "Standard Pedal"⟩ ∧
     drillTemplateFaceRects encC9 =
       [topRect ⟨"1590B", 60, 31, 112, "Standard Pedal"⟩,
        rightRect ⟨"1590B", 60, 31, 112, "Standard Pedal"⟩,
        leftRect ⟨"1590B", 60, 31, 112, "Standard Pedal"⟩,
        backRect ⟨"1590B", 60, 31, 112, "Standard Pedal"⟩,
        frontRect ⟨"1590B", 60, 31, 112, "Standard Pedal"⟩] ∧
     (drillTemplateFaceRects encC9).length = 5) :=
  ⟨by decide, C9_unknown_model_fallback encC9 (by decide)⟩

/-- The hiding rule never changes an object's name. -/
theorem hideForExport_name (m t : String) (o : SceneObject) :
    (hideForExport m t o).name = o.name := by
  unfold hideForExport
  split_ifs <;> rfl

/-- C10: for every selection mode and every scene, the STL export handler
restores every scene object's `visible` flag to its exact pre-call value: the
returned scene equals the input scene. -/
theorem C10_export_restores_visibility (appMode ty : String)
    (scene : List SceneObject) :
    (handleExportSTL appMode ty scene).1 = scene := by
  unfold handleExportSTL
  induction scene with
  | nil => rfl
  | cons o rest ih =>
    simp only [List.map_cons, List.zipWith_cons_cons]
    refine congrArg₂ List.cons ?_ ih
    cases o with
    | mk n v =>
      have hn := hideForExport_name appMode ty ⟨n, v⟩
      cases hh : hideForExport appMode ty ⟨n, v⟩ with
      | mk n2 v2 =>
        rw [hh] at hn
        simp only at hn
        simp [hn]

/-! ## D-shaft bore geometry (C4) -/

/-- The D-shaft bore boundary is symmetric about the Y-axis: the arc part
maps through `θ ↦ π − θ` and the chord part through `t ↦ 1 − t`. -/
theorem dShaftBore_symm (p : KnobParameters) :
    ∀ q ∈ dShaftBore p, ((-q.1, q.2) : ℝ × ℝ) ∈ dShaftBore p := by
  rintro q (⟨θ, h1, h2, rfl⟩ | ⟨t, h0, h1, rfl⟩)
  · left
    refine ⟨Real.pi - θ, by linarith, by linarith, ?_⟩
    rw [Real.cos_pi_sub, Real.sin_pi_sub]
    simp only [Prod.mk.injEq]
    constructor <;> ring_nf
  · right
    refine ⟨1 - t, by linarith, by linarith, ?_⟩
    simp only [Prod.mk.injEq]
    constructor <;> ring_nf

/-- Every point of the D-shaft bore boundary has its second coordinate
between the flat height `flatY` and the top of the arc `shaftR` — the
"flat-to-opposite-wall" extent of the bore is `shaftR − flatY`. -/
theorem dShaftBore_y_bounds (p : KnobParameters)
    (hr : (0 : ℝ) < ((shaftR p : ℚ) : ℝ))
    (hfy : |((flatY p : ℚ) : ℝ)| ≤ ((shaftR p : ℚ) : ℝ)) :
    ∀ q ∈ dShaftBore p,
      ((flatY p : ℚ) : ℝ) ≤ q.2 ∧ q.2 ≤ ((shaftR p : ℚ) : ℝ) := by
  have h1 : -((shaftR p : ℚ) : ℝ) ≤ ((flatY p : ℚ) : ℝ) := (abs_le.mp hfy).1
  have h2 : ((flatY p : ℚ) : ℝ) ≤ ((shaftR p : ℚ) : ℝ) := (abs_le.mp hfy).2
  have ha1 : -1 ≤ ((flatY p : ℚ) : ℝ) / ((shaftR p : ℚ) : ℝ) := by
    rw [neg_le, ← neg_div, div_le_one hr]
    linarith
  have ha2 : ((flatY p : ℚ) : ℝ) / ((shaftR p : ℚ) : ℝ) ≤ 1 := by
    rw [div_le_one hr]
    exact h2
  have hs : Real.sin (Real.arcsin (((flatY p : ℚ) : ℝ) / ((shaftR p : ℚ) : ℝ))) =
      ((flatY p : ℚ) : ℝ) / ((shaftR p : ℚ) : ℝ) := Real.sin_arcsin ha1 ha2
  rintro q (⟨θ, hθ1, hθ2, rfl⟩ | ⟨t, -, -, rfl⟩)
  · dsimp only
    have hmem1 : Real.arcsin (((flatY p : ℚ) : ℝ) / ((shaftR p : ℚ) : ℝ)) ∈
        Set.Icc (-(Real.pi / 2)) (Real.pi / 2) := Real.arcsin_mem_Icc _
    have key : ((flatY p : ℚ) : ℝ) / ((shaftR p : ℚ) : ℝ) ≤ Real.sin θ := by
      by_cases hc : θ ≤ Real.pi / 2
      · have hmem2 : θ ∈ Set.Icc (-(Real.pi / 2)) (Real.pi / 2) :=
          ⟨le_trans hmem1.1 hθ1, hc⟩
        have := Real.strictMonoOn_sin.monotoneOn hmem1 hmem2 hθ1
        rwa [hs] at this
      · push_neg at hc
        rw [← Real.sin_pi_sub θ]
        have hle : Real.arcsin (((flatY p : ℚ) : ℝ) / ((shaftR p : ℚ) : ℝ)) ≤
            Real.pi - θ := by linarith
        have hmem2 : Real.pi - θ ∈ Set.Icc (-(Real.pi / 2)) (Real.pi / 2) :=
          ⟨le_trans hmem1.1 hle, by linarith⟩
        have := Real.strictMonoOn_sin.monotoneOn hmem1 hmem2 hle
        rwa [hs] at this
    constructor
    · calc ((flatY p : ℚ) : ℝ)
          = ((shaftR p : ℚ) : ℝ) * (((flatY p : ℚ) : ℝ) / ((shaftR p : ℚ) : ℝ)) := by
            field_simp
        _ ≤ ((shaftR p : ℚ) : ℝ) * Real.sin θ :=
            mul_le_mul_of_nonneg_left key hr.le
    · calc ((shaftR p : ℚ) : ℝ) * Real.sin θ
          ≤ ((shaftR p : ℚ) : ℝ) * 1 :=
            mul_le_mul_of_nonneg_left (Real.sin_le_one θ) hr.le
        _ = ((shaftR p : ℚ) : ℝ) := mul_one _
  · dsimp only
    exact ⟨le_rfl, h2⟩

/-- The top of the arc, `(0, shaftR)`, lies on the D-shaft bore boundary
(the opposite wall of the flat). -/
theorem dShaftBore_top_mem (p : KnobParameters) :
    (((0 : ℝ), ((shaftR p : ℚ) : ℝ)) : ℝ × ℝ) ∈ dShaftBore p := by
  left
  refine ⟨Real.pi / 2, Real.arcsin_le_pi_div_two _, ?_, ?_⟩
  · have := Real.neg_pi_div_two_le_arcsin
      (((flatY p : ℚ) : ℝ) / ((shaftR p : ℚ) : ℝ))
    have hpi := Real.pi_pos
    linarith [Real.arcsin_le_pi_div_two (((flatY p : ℚ) : ℝ) / ((shaftR p : ℚ) : ℝ))]
  · rw [Real.cos_pi_div_two, Real.sin_pi_div_two]
    simp

/-- The right end of the flat chord, `(xOff, flatY)`, lies on the bore
boundary. -/
theorem dShaftBore_flat_mem (p : KnobParameters) :
    ((Real.sqrt (((shaftR p : ℚ) : ℝ) ^ 2 - ((flatY p : ℚ) : ℝ) ^ 2),
      ((flatY p : ℚ) : ℝ)) : ℝ × ℝ) ∈ dShaftBore p := by
  right
  exact ⟨0, le_rfl, zero_le_one, by norm_num⟩

/-- C4: on the standard D-shaft input (`shaftDiameter = 6`,
`dFlatSize = 4.5 ∈ (3, 6)`, `holeTolerance = 0.15`) the bore boundary is
symmetric about the Y-axis and spans vertically from the flat at
`flatY = −1.5` to the opposite wall at `shaftR = 3`, so the
flat-to-opposite-wall distance is `3 − (−1.5) = 4.5 = dFlatSize` — not the
specified `dFlatSize + holeTolerance = 4.65`: the tolerance is ignored. -/
theorem C4_dshaft_flat_distance_bug :
    knobC4.shaftDiameter / 2 < knobC4.dFlatSize ∧
    knobC4.dFlatSize < knobC4.shaftDiameter ∧
    ((shaftR knobC4 : ℚ) : ℝ) = 3 ∧
    ((flatY knobC4 : ℚ) : ℝ) = -1.5 ∧
    (((0 : ℝ), (3 : ℝ)) : ℝ × ℝ) ∈ dShaftBore knobC4 ∧
    (∃ x : ℝ, ((x, (-1.5 : ℝ)) : ℝ × ℝ) ∈ dShaftBore knobC4) ∧
    (∀ q ∈ dShaftBore knobC4, (-1.5 : ℝ) ≤ q.2 ∧ q.2 ≤ 3) ∧
    (∀ q ∈ dShaftBore knobC4, ((-q.1, q.2) : ℝ × ℝ) ∈ dShaftBore knobC4) ∧
    (3 : ℝ) - (-1.5) = 4.5 ∧
    knobC4.dFlatSize + knobC4.holeTolerance = 4.65 ∧
    (4.5 : ℚ) ≠ 4.65 := by
  have hr3 : ((shaftR knobC4 : ℚ) : ℝ) = 3 := by
    norm_num [shaftR, knobC4, DEFAULT_KNOB]
  have hf : ((flatY knobC4 : ℚ) : ℝ) = -1.5 := by
    norm_num [flatY, centerToFlat, shaftR, knobC4, DEFAULT_KNOB]
  have habs : |((flatY knobC4 : ℚ) : ℝ)| ≤ ((shaftR knobC4 : ℚ) : ℝ) := by
    rw [hf, hr3]
    rw [abs_le]
    norm_num
  have hrpos : (0 : ℝ) < ((shaftR knobC4 : ℚ) : ℝ) := by
    rw [hr3]
    norm_num
  refine ⟨by norm_num [knobC4, DEFAULT_KNOB], by norm_num [knobC4, DEFAULT_KNOB],
          hr3, hf, ?_, ?_, ?_, dShaftBore_symm knobC4, by norm_num,
          by norm_num [knobC4, DEFAULT_KNOB], by norm_num⟩
  · have := dShaftBore_top_mem knobC4
    rwa [hr3] at this
  · have hmem := dShaftBore_flat_mem knobC4
    rw [hf] at hmem
    exact ⟨_, hmem⟩
  · intro q hq
    have := dShaftBore_y_bounds knobC4 hrpos habs q hq
    rwa [hf, hr3] at this

/-! ## Slicing invariants (C2) -/

/-- Validity envelope for the slicing invariants, matching the spec's
parameter invariants: positive height, non-negative shaft depth, and for
capped knobs a non-negative cap height on a knob at least 1mm tall. -/
def ValidKnob (p : KnobParameters) : Prop :=
  0 < p.height ∧ 0 ≤ p.shaftDepth ∧
  (p.hasCap = true → 0 ≤ p.capHeight ∧ 1 ≤ p.height)

/-- The effective cap height is non-negative on valid parameters. -/
theorem capHeightEff_nonneg (p : KnobParameters) (hv : ValidKnob p) :
    0 ≤ capHeightEff p := by
  unfold capHeightEff
  by_cases hc : p.hasCap = true
  · rw [if_pos hc]
    obtain ⟨hch, hh1⟩ := hv.2.2 hc
    exact le_min hch (by linarith)
  · rw [if_neg hc]

/-- Without a cap the body extends to the full height. -/
theorem bodyHeightOf_of_not_cap (p : KnobParameters) (hc : p.hasCap = false) :
    bodyHeightOf p = p.height := by
  unfold bodyHeightOf capHeightEff
  rw [hc]
  simp

/-- With a cap the body is at least 1mm tall (the `totalHeight - 1` clamp). -/
theorem one_le_bodyHeightOf_of_cap (p : KnobParameters) (hc : p.hasCap = true) :
    1 ≤ bodyHeightOf p := by
  unfold bodyHeightOf capHeightEff
  rw [if_pos hc]
  have := min_le_right p.capHeight (p.height - 1)
  linarith

/-- The body height is positive on valid parameters. -/
theorem bodyHeightOf_pos (p : KnobParameters) (hv : ValidKnob p) :
    0 < bodyHeightOf p := by
  by_cases hc : p.hasCap = true
  · have := one_le_bodyHeightOf_of_cap p hc
    linarith
  · rw [bodyHeightOf_of_not_cap p (by simpa using hc)]
    exact hv.1

/-- The body height is at most the total height on valid parameters. -/
theorem bodyHeightOf_le (p : KnobParameters) (hv : ValidKnob p) :
    bodyHeightOf p ≤ p.height := by
  have := capHeightEff_nonneg p hv
  unfold bodyHeightOf
  linarith

/-- The clamped shaft depth is non-negative on valid parameters. -/
theorem shaftDepthEff_nonneg (p : KnobParameters) (hv : ValidKnob p) :
    0 ≤ shaftDepthEff p := le_min hv.2.1 hv.1.le

/-- The body shaft zone height is non-negative on valid parameters. -/
theorem bodyShaftH_nonneg (p : KnobParameters) (hv : ValidKnob p) :
    0 ≤ bodyShaftH p := le_min (bodyHeightOf_pos p hv).le (shaftDepthEff_nonneg p hv)

/-- The body shaft zone ends below the body height. -/
theorem bodyShaftH_le_body (p : KnobParameters) : bodyShaftH p ≤ bodyHeightOf p :=
  min_le_left _ _

/-- The cap shaft zone height is non-negative. -/
theorem capShaftH_nonneg (p : KnobParameters) : 0 ≤ capShaftH p := le_max_left _ _

/-- The cap shaft zone fits inside the cap. -/
theorem capShaftH_le (p : KnobParameters) (hv : ValidKnob p) :
    capShaftH p ≤ p.height - bodyHeightOf p := by
  unfold capShaftH capShaftEnd
  apply max_le
  · have := bodyHeightOf_le p hv
    linarith
  · have := min_le_left p.height (shaftDepthEff p)
    linarith

/-- The cap top zone height is non-negative on valid parameters. -/
theorem capTopH_nonneg (p : KnobParameters) (hv : ValidKnob p) :
    0 ≤ capTopH p := by
  unfold capTopH capTopStart
  have := capShaftH_le p hv
  linarith

/-- Membership in a conditionally-present list fragment. -/
theorem mem_ite_nil {α : Type} (c : Prop) [Decidable c] (l : List α) (r : α) :
    r ∈ (if c then l else []) ↔ c ∧ r ∈ l := by
  split_ifs with h <;> simp [h]

/-- Complete characterization of membership in the region list. -/
theorem mem_slices_iff (p : KnobParameters) (r : SliceRegion) :
    r ∈ slices p ↔
      (r = regionBodyHollow p ∧ 0.1 < bodyShaftH p) ∨
      (r = regionBodySolid p ∧ bodyShaftH p + 0.1 < bodyHeightOf p) ∨
      ((p.hasCap = true ∧ 0.1 < capHeightEff p) ∧
        ((r = regionCapHollow p ∧ 0.01 < capShaftH p) ∨
         (r = regionCapTop p ∧ 0.01 < capTopH p))) := by
  unfold slices
  simp only [List.mem_append, mem_ite_nil, List.mem_singleton]
  tauto

/-- The regions are pairwise disjoint in ascending order: every earlier
region ends no later than any later region begins. -/
theorem slices_pairwise (p : KnobParameters) (hv : ValidKnob p) :
    List.Pairwise (fun a b => a.y + a.h ≤ b.y) (slices p) := by
  have hbs0 := bodyShaftH_nonneg p hv
  have hbsb := bodyShaftH_le_body p
  have hcsh0 := capShaftH_nonneg p
  have hbl := bodyHeightOf_le p hv
  unfold slices
  split_ifs <;>
    simp_all [List.pairwise_cons, regionBodyHollow, regionBodySolid,
      regionCapHollow, regionCapTop, capTopStart] <;>
    linarith

/-- Every region is non-degenerate and lies inside `[0, height)`. -/
theorem slices_bounds (p : KnobParameters) (hv : ValidKnob p) :
    ∀ r ∈ slices p, 0 < r.h ∧ 0 ≤ r.y ∧ r.y + r.h ≤ p.height := by
  have hbs0 := bodyShaftH_nonneg p hv
  have hbsb := bodyShaftH_le_body p
  have hcsh0 := capShaftH_nonneg p
  have hcshle := capShaftH_le p hv
  have hbl := bodyHeightOf_le p hv
  have hbp := bodyHeightOf_pos p hv
  intro r hr
  have hcts : capTopStart p = bodyHeightOf p + capShaftH p := rfl
  have hcth : capTopH p = p.height - capTopStart p := rfl
  rcases (mem_slices_iff p r).mp hr with ⟨rfl, hc⟩ | ⟨rfl, hc⟩ |
    ⟨⟨hcap, hce⟩, ⟨rfl, hc⟩ | ⟨rfl, hc⟩⟩
  · simp only [regionBodyHollow]
    refine ⟨by linarith, by norm_num, by linarith⟩
  · simp only [regionBodySolid]
    refine ⟨by linarith, by linarith, by linarith⟩
  · simp only [regionCapHollow]
    refine ⟨by linarith, by linarith [bodyHeightOf_pos p hv], by linarith⟩
  · simp only [regionCapTop]
    refine ⟨by linarith, by linarith [bodyHeightOf_pos p hv], by linarith⟩

/-- Every point of `[0, height)` lies in a kept region or in a dropped gap
of width at most 0.1 that is disjoint from all kept regions. -/
theorem slices_cover (p : KnobParameters) (hv : ValidKnob p) :
    ∀ t : ℚ, 0 ≤ t → t < p.height →
      (∃ r ∈ slices p, r.y ≤ t ∧ t < r.y + r.h) ∨
      (∃ a b : ℚ, a ≤ t ∧ t < b ∧ b - a ≤ 0.1 ∧
        ∀ r ∈ slices p, r.y + r.h ≤ a ∨ b ≤ r.y) := by
  have hbs0 := bodyShaftH_nonneg p hv
  have hbsb := bodyShaftH_le_body p
  have hcsh0 := capShaftH_nonneg p
  have hcshle := capShaftH_le p hv
  have hbl := bodyHeightOf_le p hv
  intro t ht0 htH
  by_cases hts : t < bodyShaftH p
  · by_cases h1 : (0.1 : ℚ) < bodyShaftH p
    · left
      refine ⟨regionBodyHollow p, (mem_slices_iff p _).mpr (Or.inl ⟨rfl, h1⟩), ?_⟩
      simp only [regionBodyHollow]
      exact ⟨ht0, by simpa using hts⟩
    · right
      push_neg at h1
      refine ⟨0, bodyShaftH p, ht0, hts, by linarith, ?_⟩
      intro r hr
      rcases (mem_slices_iff p r).mp hr with ⟨rfl, hc⟩ | ⟨rfl, hc⟩ |
        ⟨⟨hcap, hce⟩, ⟨rfl, hc⟩ | ⟨rfl, hc⟩⟩
      · linarith
      · right
        simp [regionBodySolid]
      · right
        simp only [regionCapHollow]
        linarith
      · right
        simp only [regionCapTop, capTopStart]
        linarith
  · push_neg at hts
    by_cases htb : t < bodyHeightOf p
    · by_cases h2 : bodyShaftH p + 0.1 < bodyHeightOf p
      · left
        refine ⟨regionBodySolid p,
          (mem_slices_iff p _).mpr (Or.inr (Or.inl ⟨rfl, h2⟩)), ?_⟩
        simp only [regionBodySolid]
        exact ⟨hts, by linarith⟩
      · right
        push_neg at h2
        refine ⟨bodyShaftH p, bodyHeightOf p, hts, htb, by linarith, ?_⟩
        intro r hr
        rcases (mem_slices_iff p r).mp hr with ⟨rfl, hc⟩ | ⟨rfl, hc⟩ |
          ⟨⟨hcap, hce⟩, ⟨rfl, hc⟩ | ⟨rfl, hc⟩⟩
        · left
          simp only [regionBodyHollow]
          linarith
        · linarith
        · right
          simp [regionCapHollow]
        · right
          simp only [regionCapTop, capTopStart]
          linarith
    · push_neg at htb
      have hcap : p.hasCap = true := by
        cases hcb : p.hasCap with
        | true => rfl
        | false =>
            have := bodyHeightOf_of_not_cap p hcb
            linarith
      have hcapeq : p.height - bodyHeightOf p = capHeightEff p := by
        unfold bodyHeightOf
        ring
      by_cases hce : (0.1 : ℚ) < capHeightEff p
      · by_cases htc : t < capTopStart p
        · by_cases h4 : (0.01 : ℚ) < capShaftH p
          · left
            refine ⟨regionCapHollow p,
              (mem_slices_iff p _).mpr (Or.inr (Or.inr ⟨⟨hcap, hce⟩, Or.inl ⟨rfl, h4⟩⟩)), ?_⟩
            simp only [regionCapHollow]
            refine ⟨htb, ?_⟩
            have : capTopStart p = bodyHeightOf p + capShaftH p := rfl
            linarith
          · right
            push_neg at h4
            refine ⟨bodyHeightOf p, capTopStart p, htb, htc, ?_, ?_⟩
            · have : capTopStart p = bodyHeightOf p + capShaftH p := rfl
              linarith
            · intro r hr
              rcases (mem_slices_iff p r).mp hr with ⟨rfl, hc⟩ | ⟨rfl, hc⟩ |
                ⟨⟨hcap2, hce2⟩, ⟨rfl, hc⟩ | ⟨rfl, hc⟩⟩
              · left
                simp only [regionBodyHollow]
                linarith
              · left
                simp only [regionBodySolid]
                linarith
              · linarith
              · right
                simp [regionCapTop]
        · push_neg at htc
          by_cases h5 : (0.01 : ℚ) < capTopH p
          · left
            refine ⟨regionCapTop p,
              (mem_slices_iff p _).mpr (Or.inr (Or.inr ⟨⟨hcap, hce⟩, Or.inr ⟨rfl, h5⟩⟩)), ?_⟩
            simp only [regionCapTop]
            refine ⟨htc, ?_⟩
            have : capTopH p = p.height - capTopStart p := rfl
            linarith
          · right
            push_neg at h5
            have hcth : capTopH p = p.height - capTopStart p := rfl
            refine ⟨capTopStart p, p.height, htc, htH, by linarith, ?_⟩
            intro r hr
            have hcts : capTopStart p = bodyHeightOf p + capShaftH p := rfl
            rcases (mem_slices_iff p r).mp hr with ⟨rfl, hc⟩ | ⟨rfl, hc⟩ |
              ⟨⟨hcap2, hce2⟩, ⟨rfl, hc⟩ | ⟨rfl, hc⟩⟩
            · left
              simp only [regionBodyHollow]
              linarith
            · left
              simp only [regionBodySolid]
              linarith
            · left
              simp only [regionCapHollow]
              linarith
            · linarith
      · right
        push_neg at hce
        refine ⟨bodyHeightOf p, p.height, htb, htH, by linarith, ?_⟩
        intro r hr
        rcases (mem_slices_iff p r).mp hr with ⟨rfl, hc⟩ | ⟨rfl, hc⟩ |
          ⟨⟨hcap2, hce2⟩, hc4⟩
        · left
          simp only [regionBodyHollow]
          linarith
        · left
          simp only [regionBodySolid]
          linarith
        · linarith

/-- The region list is non-empty whenever the height clears the 0.2mm
threshold (the two 0.1mm body epsilons): either the shaft zone survives or
the remaining body zone does. -/
theorem slices_nonempty (p : KnobParameters) (hH : (0.2 : ℚ) < p.height) :
    slices p ≠ [] := by
  by_cases h1 : (0.1 : ℚ) < bodyShaftH p
  · exact List.ne_nil_of_mem ((mem_slices_iff p _).mpr (Or.inl ⟨rfl, h1⟩))
  · push_neg at h1
    have h2 : bodyShaftH p + 0.1 < bodyHeightOf p := by
      cases hcb : p.hasCap with
      | true =>
          have := one_le_bodyHeightOf_of_cap p hcb
          linarith
      | false =>
          have := bodyHeightOf_of_not_cap p hcb
          linarith
    exact List.ne_nil_of_mem ((mem_slices_iff p _).mpr (Or.inr (Or.inl ⟨rfl, h2⟩)))

/-- Base heights are monotone along the list. -/
theorem slices_base_mono (p : KnobParameters) (hv : ValidKnob p) :
    List.Pairwise (fun a b => a.y ≤ b.y) (slices p) := by
  have hb := slices_bounds p hv
  refine (slices_pairwise p hv).imp_of_mem ?_
  intro a b ha hb2 hab
  have := (hb a ha).1
  linarith

/-- C2 (amended): on valid parameters the region list is ordered and
pairwise disjoint, every region is non-degenerate and contained in
`[0, height)`, every point of `[0, height)` lies in a region or in an
epsilon-dropped gap of width at most 0.1mm disjoint from all regions, and
the list is non-empty whenever `height > 0.2` (for `0 < height ≤ 0.2` all
regions can be epsilon-dropped, leaving an empty list). -/
theorem C2_slicing_invariants (p : KnobParameters) (hv : ValidKnob p) :
    List.Pairwise (fun a b => a.y ≤ b.y) (slices p) ∧
    List.Pairwise (fun a b => a.y + a.h ≤ b.y) (slices p) ∧
    (∀ r ∈ slices p, 0 < r.h ∧ 0 ≤ r.y ∧ r.y + r.h ≤ p.height) ∧
    (∀ t : ℚ, 0 ≤ t → t < p.height →
      (∃ r ∈ slices p, r.y ≤ t ∧ t < r.y + r.h) ∨
      (∃ a b : ℚ, a ≤ t ∧ t < b ∧ b - a ≤ 0.1 ∧
        ∀ r ∈ slices p, r.y + r.h ≤ a ∨ b ≤ r.y)) ∧
    ((0.2 : ℚ) < p.height → slices p ≠ []) :=
  ⟨slices_base_mono p hv, slices_pairwise p hv, slices_bounds p hv,
   slices_cover p hv, fun h => slices_nonempty p h⟩

/-- C2 witness: the default knob (height 18, shaft depth 14, no cap) is
valid and satisfies all the slicing invariants. -/
theorem C2_slicing_invariants_witness :
    ValidKnob DEFAULT_KNOB ∧
    (List.Pairwise (fun a b => a.y ≤ b.y) (slices DEFAULT_KNOB) ∧
     List.Pairwise (fun a b => a.y + a.h ≤ b.y) (slices DEFAULT_KNOB) ∧
     (∀ r ∈ slices DEFAULT_KNOB,
       0 < r.h ∧ 0 ≤ r.y ∧ r.y + r.h ≤ DEFAULT_KNOB.height) ∧
     (∀ t : ℚ, 0 ≤ t → t < DEFAULT_KNOB.height →
       (∃ r ∈ slices DEFAULT_KNOB, r.y ≤ t ∧ t < r.y + r.h) ∨
       (∃ a b : ℚ, a ≤ t ∧ t < b ∧ b - a ≤ 0.1 ∧
         ∀ r ∈ slices DEFAULT_KNOB, r.y + r.h ≤ a ∨ b ≤ r.y)) ∧
     ((0.2 : ℚ) < DEFAULT_KNOB.height → slices DEFAULT_KNOB ≠ [])) := by
  have hv : ValidKnob DEFAULT_KNOB := by
    refine ⟨by norm_num [DEFAULT_KNOB], by norm_num [DEFAULT_KNOB], ?_⟩
    intro hc
    exact absurd hc (by norm_num [DEFAULT_KNOB])
  exact ⟨hv, C2_slicing_invariants DEFAULT_KNOB hv⟩

end AlphaForge
